import Mathlib

/-!
# Verification of the DFIV two-stage least-squares estimator

Shallow embedding of `src/src/models/DFIV/model.py` (class `DFIVModel`).
Numeric tensors are embedded as matrices over `ℚ`; the fallible
linear-algebra solve (which raises on a singular Gram matrix in the
reference) is embedded as an `Option`-returning function, and exceptions
propagate as `none`.

The linear-algebra collaborators (`fit_linear`, `linear_reg_pred`,
`outer_prod`, `add_const_col`) live in `src/utils/pytorch_linear_reg_utils.py`,
which is not part of the sources; they are modelled from the spec
(section 6, EXTERNAL INTERFACES).
-/

namespace DFIV

open Matrix BigOperators

/-- Squared Frobenius norm of a matrix: the sum of the squares of all
entries.  This embeds `torch.norm(M) ** 2` (the square of the Frobenius
norm), which mathematically equals the sum of squared entries. -/
def sqFrobNorm {n m : ℕ} (M : Matrix (Fin n) (Fin m) ℚ) : ℚ :=
  ∑ i, ∑ j, (M i j) ^ 2

/-- Frobenius inner product of two matrices of the same shape. -/
def innerF {n m : ℕ} (M N : Matrix (Fin n) (Fin m) ℚ) : ℚ :=
  ∑ i, ∑ j, M i j * N i j

/-- Modelled from the spec: constant-column augmentation collaborator
`add_const_col` (missing `src/utils/pytorch_linear_reg_utils.py`):
"appends a column of ones to a feature matrix". -/
def add_const_col {n m : ℕ} (f : Matrix (Fin n) (Fin m) ℚ) :
    Matrix (Fin n) (Fin (m + 1)) ℚ :=
  Matrix.of fun i j => if h : (j : ℕ) < m then f i ⟨j, h⟩ else 1

/-- Modelled from the spec: per-sample outer product collaborator
`outer_prod` (missing `src/utils/pytorch_linear_reg_utils.py`): "given two
feature matrices with matching sample count, returns their per-sample outer
product" (a 3-D tensor, before flattening). -/
def outer_prod {n m1 m2 : ℕ} (A : Matrix (Fin n) (Fin m1) ℚ)
    (B : Matrix (Fin n) (Fin m2) ℚ) : Fin n → Fin m1 → Fin m2 → ℚ :=
  fun i j k => A i j * B i k

/-- Embedding of `torch.flatten(t, start_dim=1)` on a 3-D tensor: each
sample's `m1 × m2` slab becomes one row-major flat vector of width
`m1 * m2`. -/
def flatten1 {n m1 m2 : ℕ} (t : Fin n → Fin m1 → Fin m2 → ℚ) :
    Matrix (Fin n) (Fin (m1 * m2)) ℚ :=
  Matrix.of fun i j =>
    have h2 : 0 < m2 := by
      rcases Nat.eq_zero_or_pos m2 with h | h
      · exact absurd j.isLt (by simp [h])
      · exact h
    t i ⟨(j : ℕ) / m2, Nat.div_lt_of_lt_mul (Nat.mul_comm m1 m2 ▸ j.isLt)⟩
      ⟨(j : ℕ) % m2, Nat.mod_lt _ h2⟩

/-- Executable determinant over `ℚ` by cofactor expansion along the first
row (kernel-reducible, unlike Mathlib's `Matrix.det`; proven equal to it in
`detQ_eq`). -/
def detQ : (p : ℕ) → Matrix (Fin p) (Fin p) ℚ → ℚ
  | 0, _ => 1
  | p + 1, A =>
      ∑ j : Fin (p + 1), (-1) ^ (j : ℕ) * A 0 j * detQ p (A.submatrix Fin.succ j.succAbove)

/-- Scalar-matrix inverse used by the ridge solver: `det⁻¹ • adjugate`
(with the adjugate spelled through `detQ` and `Matrix.updateRow` so that it
is kernel-executable).  Over the field `ℚ` this agrees with Mathlib's
noncomputable `M⁻¹` on invertible matrices. -/
def matInv {p : ℕ} (A : Matrix (Fin p) (Fin p) ℚ) : Matrix (Fin p) (Fin p) ℚ :=
  (detQ p A)⁻¹ • Matrix.of fun i j => detQ p (A.updateRow j (Pi.single i 1))

/-- Modelled from the spec: ridge-regression solver collaborator
`fit_linear` (missing `src/utils/pytorch_linear_reg_utils.py`): "given
design matrix X, target Y, penalty λ, returns weight matrix W minimizing
‖Y − XW‖² + λ‖W‖² (closed form)", i.e. the normal equations
`(Xᵀ X + λ·I) W = Xᵀ Y` (spec 4.2 step 2: "normal equations with lam1·I
regularizer on the instrument-feature Gram matrix").  A singular
regularized Gram matrix raises a linear-algebra error in the reference
(spec section 7), embedded as `none`.  The argument order `(target,
feature, reg)` matches the call sites in `model.py`. -/
def fit_linear {n m k : ℕ} (target : Matrix (Fin n) (Fin k) ℚ)
    (feature : Matrix (Fin n) (Fin m) ℚ) (reg : ℚ) :
    Option (Matrix (Fin m) (Fin k) ℚ) :=
  -- A := the regularized Gram matrix  Xᵀ X + λ·I
  if detQ m (feature.transpose * feature + reg • (1 : Matrix (Fin m) (Fin m) ℚ)) = 0
  then none
  else some (matInv (feature.transpose * feature + reg • (1 : Matrix (Fin m) (Fin m) ℚ))
               * (feature.transpose * target))

/-- Modelled from the spec: linear predictor collaborator `linear_reg_pred`
(missing `src/utils/pytorch_linear_reg_utils.py`): "given feature matrix X
and weight W, returns XW". -/
def linear_reg_pred {n m k : ℕ} (feature : Matrix (Fin n) (Fin m) ℚ)
    (weight : Matrix (Fin m) (Fin k) ℚ) : Matrix (Fin n) (Fin k) ℚ :=
  feature * weight

/-- Width of a feature matrix of width `m` after the optional constant
column controlled by an intercept flag. -/
@[reducible] def augWidth : Bool → ℕ → ℕ
  | true, m => m + 1
  | false, m => m

/-- Optionally append a constant column, as done inline by both
`augment_stage1_feature` and `augment_stage2_feature` in `model.py`
(`if add_intercept: feature = add_const_col(feature)`). -/
def addConstIf {n m : ℕ} (f : Matrix (Fin n) (Fin m) ℚ) :
    (b : Bool) → Matrix (Fin n) (Fin (augWidth b m)) ℚ
  | true => add_const_col f
  | false => f

/-- `DFIVModel.augment_stage1_feature`: the instrument feature, optionally
with a constant column appended. -/
def augment_stage1_feature {n m : ℕ} (instrumental_feature : Matrix (Fin n) (Fin m) ℚ)
    (add_stage1_intercept : Bool) :
    Matrix (Fin n) (Fin (augWidth add_stage1_intercept m)) ℚ :=
  addConstIf instrumental_feature add_stage1_intercept

/-- Output width of `augment_stage2_feature` for treatment width `t`,
covariate width `c`, intercept flag `b`, and covariate presence flag. -/
@[reducible] def s2Width (b : Bool) (t c : ℕ) : Bool → ℕ
  | false => augWidth b t
  | true => augWidth b t * augWidth b c

/-- `DFIVModel.augment_stage2_feature`: optionally intercept-augment the
(predicted) treatment feature; when a covariate feature is present,
intercept-augment it the same way, take the per-sample outer product and
flatten from dimension 1; otherwise return the augmented treatment feature
alone. -/
def augment_stage2_feature {n t c : ℕ}
    (predicted_treatment_feature : Matrix (Fin n) (Fin t) ℚ)
    (covariate_feature : Option (Matrix (Fin n) (Fin c) ℚ))
    (add_stage2_intercept : Bool) :
    Matrix (Fin n) (Fin (s2Width add_stage2_intercept t c covariate_feature.isSome)) ℚ :=
  match covariate_feature with
  | none => addConstIf predicted_treatment_feature add_stage2_intercept
  | some cf =>
      flatten1 (outer_prod (addConstIf predicted_treatment_feature add_stage2_intercept)
                           (addConstIf cf add_stage2_intercept))

/-- The dictionary returned by `DFIVModel.fit_2sls`. -/
structure FitResult (n2 fT fI fC dY : ℕ) (b1 b2 hasCov : Bool) where
  stage1_weight : Matrix (Fin (augWidth b1 fI)) (Fin fT) ℚ
  predicted_treatment_feature : Matrix (Fin n2) (Fin fT) ℚ
  stage2_weight : Matrix (Fin (s2Width b2 fT fC hasCov)) (Fin dY) ℚ
  stage2_loss : ℚ
  deriving DecidableEq

/-- `DFIVModel.fit_2sls`: stage-1 ridge solve on the first split, linear
prediction of treatment features on the second split, stage-2 feature
augmentation, stage-2 ridge solve, and the regularized stage-2 loss.  A
solve failure propagates (`none`). -/
def fit_2sls {n1 n2 fT fI fC dY : ℕ}
    (treatment_1st_feature : Matrix (Fin n1) (Fin fT) ℚ)
    (instrumental_1st_feature : Matrix (Fin n1) (Fin fI) ℚ)
    (instrumental_2nd_feature : Matrix (Fin n2) (Fin fI) ℚ)
    (covariate_2nd_feature : Option (Matrix (Fin n2) (Fin fC) ℚ))
    (outcome_2nd_t : Matrix (Fin n2) (Fin dY) ℚ)
    (lam1 lam2 : ℚ)
    (add_stage1_intercept add_stage2_intercept : Bool) :
    Option (FitResult n2 fT fI fC dY add_stage1_intercept add_stage2_intercept
      covariate_2nd_feature.isSome) :=
  -- stage1
  let feature1 := augment_stage1_feature instrumental_1st_feature add_stage1_intercept
  match fit_linear treatment_1st_feature feature1 lam1 with
  | none => none
  | some stage1_weight =>
    -- predicting for stage 2
    let feature2 := augment_stage1_feature instrumental_2nd_feature add_stage1_intercept
    let predicted_treatment_feature := linear_reg_pred feature2 stage1_weight
    -- stage2
    let feature := augment_stage2_feature predicted_treatment_feature
                     covariate_2nd_feature add_stage2_intercept
    match fit_linear outcome_2nd_t feature lam2 with
    | none => none
    | some stage2_weight =>
      let pred := linear_reg_pred feature stage2_weight
      let stage2_loss := sqFrobNorm (outcome_2nd_t - pred)
                           + lam2 * sqFrobNorm stage2_weight
      some ⟨stage1_weight, predicted_treatment_feature, stage2_weight, stage2_loss⟩

/-- Type of the optional covariate feature extractor: a feature-extractor
function when the model was constructed with one (`hasCov = true`), nothing
otherwise (`covariate_net is None`). -/
@[reducible] def CovNet : Bool → ℕ → ℕ → Type
  | true, rC, fC => ∀ n, Matrix (Fin n) (Fin rC) ℚ → Matrix (Fin n) (Fin fC) ℚ
  | false, _, _ => Unit

/-- The `DFIVModel` estimator state: the three feature extractors (opaque
collaborators), the two intercept flags, and the two weight slots.  In the
reference the weight attributes are simply absent until `fit` sets them;
here they are `Option`s initialised to `none`, and reading an unset weight
is the unfitted-model error (`none` result). -/
structure DFIVModel (rT rI rC fT fI fC dY : ℕ) (hasCov : Bool) where
  treatment_net : ∀ n, Matrix (Fin n) (Fin rT) ℚ → Matrix (Fin n) (Fin fT) ℚ
  instrumental_net : ∀ n, Matrix (Fin n) (Fin rI) ℚ → Matrix (Fin n) (Fin fI) ℚ
  covariate_net : CovNet hasCov rC fC
  add_stage1_intercept : Bool
  add_stage2_intercept : Bool
  stage1_weight : Option (Matrix (Fin (augWidth add_stage1_intercept fI)) (Fin fT) ℚ)
  stage2_weight : Option (Matrix (Fin (s2Width add_stage2_intercept fT fC hasCov)) (Fin dY) ℚ)

/-- `DFIVModel.__init__`: stores the nets and flags; the weight attributes
are not assigned (embedded as `none`). -/
def DFIVModel.init {rT rI rC fT fI fC dY : ℕ} {hasCov : Bool}
    (treatment_net : ∀ n, Matrix (Fin n) (Fin rT) ℚ → Matrix (Fin n) (Fin fT) ℚ)
    (instrumental_net : ∀ n, Matrix (Fin n) (Fin rI) ℚ → Matrix (Fin n) (Fin fI) ℚ)
    (covariate_net : CovNet hasCov rC fC)
    (add_stage1_intercept add_stage2_intercept : Bool) :
    DFIVModel rT rI rC fT fI fC dY hasCov :=
  ⟨treatment_net, instrumental_net, covariate_net,
   add_stage1_intercept, add_stage2_intercept, none, none⟩

/-- Tensor-level training split (`TrainDataSetTorch`): named fields
`treatment`, `instrumental`, optional `covariate`, `outcome`, `structural`. -/
structure TrainDataSetTorch (n rT rI rC dY : ℕ) where
  treatment : Matrix (Fin n) (Fin rT) ℚ
  instrumental : Matrix (Fin n) (Fin rI) ℚ
  covariate : Option (Matrix (Fin n) (Fin rC) ℚ)
  outcome : Matrix (Fin n) (Fin dY) ℚ
  structural : Matrix (Fin n) (Fin dY) ℚ

/-- Tensor-level test split (`TestDataSetTorch`): `treatment`, optional
`covariate`, ground-truth `structural` outcome. -/
structure TestDataSetTorch (n rT rC dY : ℕ) where
  treatment : Matrix (Fin n) (Fin rT) ℚ
  covariate : Option (Matrix (Fin n) (Fin rC) ℚ)
  structural : Matrix (Fin n) (Fin dY) ℚ

/-- `DFIVModel.fit_t`: extract features from both splits with the nets,
run `fit_2sls`, and store the returned `stage1_weight` and `stage2_weight`
together.  Failure of the solve propagates (`none`) and yields no updated
estimator.  When the model has a covariate net but the second split has no
covariate, the reference crashes applying the net to `None`; embedded as
`none`. -/
def DFIVModel.fit_t {n1 n2 rT rI rC fT fI fC dY : ℕ} {hasCov : Bool}
    (model : DFIVModel rT rI rC fT fI fC dY hasCov)
    (train_1st_data_t : TrainDataSetTorch n1 rT rI rC dY)
    (train_2nd_data_t : TrainDataSetTorch n2 rT rI rC dY)
    (lam1 lam2 : ℚ) :
    Option (DFIVModel rT rI rC fT fI fC dY hasCov) :=
  match hasCov, model with
  | false, model =>
    match fit_2sls (model.treatment_net n1 train_1st_data_t.treatment)
            (model.instrumental_net n1 train_1st_data_t.instrumental)
            (model.instrumental_net n2 train_2nd_data_t.instrumental)
            none train_2nd_data_t.outcome lam1 lam2
            model.add_stage1_intercept model.add_stage2_intercept with
    | none => none
    | some res => some { model with stage1_weight := some res.stage1_weight,
                                    stage2_weight := some res.stage2_weight }
  | true, model =>
    match train_2nd_data_t.covariate with
    | none => none
    | some cov =>
      match fit_2sls (model.treatment_net n1 train_1st_data_t.treatment)
              (model.instrumental_net n1 train_1st_data_t.instrumental)
              (model.instrumental_net n2 train_2nd_data_t.instrumental)
              (some (model.covariate_net n2 cov)) train_2nd_data_t.outcome lam1 lam2
              model.add_stage1_intercept model.add_stage2_intercept with
      | none => none
      | some res => some { model with stage1_weight := some res.stage1_weight,
                                      stage2_weight := some res.stage2_weight }

/-- `DFIVModel.fit`: array-level wrapper; the `TrainDataSetTorch.from_numpy`
conversion collaborator is the identity in this embedding, so `fit` just
calls `fit_t`. -/
def DFIVModel.fit {n1 n2 rT rI rC fT fI fC dY : ℕ} {hasCov : Bool}
    (model : DFIVModel rT rI rC fT fI fC dY hasCov)
    (train_1st_data : TrainDataSetTorch n1 rT rI rC dY)
    (train_2nd_data : TrainDataSetTorch n2 rT rI rC dY)
    (lam1 lam2 : ℚ) :
    Option (DFIVModel rT rI rC fT fI fC dY hasCov) :=
  model.fit_t train_1st_data train_2nd_data lam1 lam2

/-- `DFIVModel.predict_t`: extract treatment features from the raw
treatment input, the covariate features when a covariate net is present,
build the stage-2 feature via `augment_stage2_feature`, and return the
linear prediction under the current `stage2_weight`.  An unset
`stage2_weight` (unfitted model) fails; a model with a covariate net but no
covariate argument fails inside the net; a model without a covariate net
never reads the covariate argument (the reference's
`if self.covariate_net:` test is false). -/
def DFIVModel.predict_t {n rT rI rC fT fI fC dY : ℕ} {hasCov : Bool}
    (model : DFIVModel rT rI rC fT fI fC dY hasCov)
    (treatment : Matrix (Fin n) (Fin rT) ℚ)
    (covariate : Option (Matrix (Fin n) (Fin rC) ℚ)) :
    Option (Matrix (Fin n) (Fin dY) ℚ) :=
  match hasCov, model, covariate with
  | false, model, _ =>
    (model.stage2_weight).map fun w =>
      linear_reg_pred
        (augment_stage2_feature (model.treatment_net n treatment)
          (none : Option (Matrix (Fin n) (Fin fC) ℚ)) model.add_stage2_intercept) w
  | true, _, none => none
  | true, model, some cov =>
    (model.stage2_weight).map fun w =>
      linear_reg_pred
        (augment_stage2_feature (model.treatment_net n treatment)
          (some (model.covariate_net n cov)) model.add_stage2_intercept) w

/-- `DFIVModel.predict`: array-level wrapper around `predict_t`; the
numpy↔tensor conversions are the identity in this embedding. -/
def DFIVModel.predict {n rT rI rC fT fI fC dY : ℕ} {hasCov : Bool}
    (model : DFIVModel rT rI rC fT fI fC dY hasCov)
    (treatment : Matrix (Fin n) (Fin rT) ℚ)
    (covariate : Option (Matrix (Fin n) (Fin rC) ℚ)) :
    Option (Matrix (Fin n) (Fin dY) ℚ) :=
  model.predict_t treatment covariate

/-- `DFIVModel.evaluate_t`: squared Frobenius norm of
(structural target − prediction) divided by the number of test samples. -/
def DFIVModel.evaluate_t {n rT rI rC fT fI fC dY : ℕ} {hasCov : Bool}
    (model : DFIVModel rT rI rC fT fI fC dY hasCov)
    (test_data : TestDataSetTorch n rT rC dY) : Option ℚ :=
  match model.predict_t test_data.treatment test_data.covariate with
  | none => none
  | some pred => some (sqFrobNorm (test_data.structural - pred) / (n : ℚ))

/-- `DFIVModel.evaluate`: array-level wrapper around `evaluate_t`. -/
def DFIVModel.evaluate {n rT rI rC fT fI fC dY : ℕ} {hasCov : Bool}
    (model : DFIVModel rT rI rC fT fI fC dY hasCov)
    (test_data : TestDataSetTorch n rT rC dY) : Option ℚ :=
  model.evaluate_t test_data

/-! ### Helper lemmas: the ridge solver and the Frobenius inner product -/

lemma detQ_eq (p : ℕ) (A : Matrix (Fin p) (Fin p) ℚ) : detQ p A = A.det := by
  induction p with
  | zero => simp [detQ]
  | succ p ih =>
      rw [detQ, Matrix.det_succ_row_zero]
      exact Finset.sum_congr rfl fun j _ => by rw [ih]

lemma matInv_eq_adjugate {p : ℕ} (A : Matrix (Fin p) (Fin p) ℚ) :
    matInv A = A.det⁻¹ • A.adjugate := by
  unfold matInv
  rw [detQ_eq]
  congr 1
  ext i j
  rw [Matrix.of_apply, detQ_eq, Matrix.adjugate_apply]

lemma matInv_mul_cancel {p : ℕ} (A : Matrix (Fin p) (Fin p) ℚ) (h : A.det ≠ 0) :
    A * matInv A = 1 := by
  rw [matInv_eq_adjugate, Matrix.mul_smul, Matrix.mul_adjugate, smul_smul,
    inv_mul_cancel₀ h, one_smul]

/-- A successful `fit_linear` solve satisfies the regularized normal
equations `(Xᵀ X + λ·I) W = Xᵀ Y`. -/
lemma fit_linear_normal_eq {n m k : ℕ} {target : Matrix (Fin n) (Fin k) ℚ}
    {feature : Matrix (Fin n) (Fin m) ℚ} {reg : ℚ}
    {W : Matrix (Fin m) (Fin k) ℚ}
    (h : fit_linear target feature reg = some W) :
    (feature.transpose * feature + reg • (1 : Matrix (Fin m) (Fin m) ℚ)) * W
      = feature.transpose * target := by
  unfold fit_linear at h
  set A := feature.transpose * feature + reg • (1 : Matrix (Fin m) (Fin m) ℚ) with hA
  rw [detQ_eq] at h
  by_cases hd : A.det = 0
  · rw [if_pos hd] at h
    exact absurd h (by simp)
  · rw [if_neg hd] at h
    cases h
    rw [← Matrix.mul_assoc, matInv_mul_cancel A hd, Matrix.one_mul]

/-- `fit_linear` fails exactly when the regularized Gram matrix is
singular. -/
lemma fit_linear_eq_none_iff {n m k : ℕ} (target : Matrix (Fin n) (Fin k) ℚ)
    (feature : Matrix (Fin n) (Fin m) ℚ) (reg : ℚ) :
    fit_linear target feature reg = none ↔
      (feature.transpose * feature + reg • (1 : Matrix (Fin m) (Fin m) ℚ)).det = 0 := by
  unfold fit_linear
  rw [detQ_eq]
  by_cases hd : (feature.transpose * feature + reg • (1 : Matrix (Fin m) (Fin m) ℚ)).det = 0
  · rw [if_pos hd]
    exact iff_of_true rfl hd
  · rw [if_neg hd]
    exact iff_of_false (Option.some_ne_none _) hd

lemma sqFrobNorm_eq_innerF {n m : ℕ} (M : Matrix (Fin n) (Fin m) ℚ) :
    sqFrobNorm M = innerF M M := by
  unfold sqFrobNorm innerF
  simp_rw [sq]

lemma sqFrobNorm_nonneg {n m : ℕ} (M : Matrix (Fin n) (Fin m) ℚ) :
    0 ≤ sqFrobNorm M := by
  unfold sqFrobNorm
  exact Finset.sum_nonneg fun i _ => Finset.sum_nonneg fun j _ => sq_nonneg _

lemma innerF_comm {n m : ℕ} (M N : Matrix (Fin n) (Fin m) ℚ) :
    innerF M N = innerF N M := by
  unfold innerF
  exact Finset.sum_congr rfl fun i _ => Finset.sum_congr rfl fun j _ => mul_comm _ _

lemma innerF_add_left {n m : ℕ} (M N P : Matrix (Fin n) (Fin m) ℚ) :
    innerF (M + N) P = innerF M P + innerF N P := by
  unfold innerF
  simp [Matrix.add_apply, add_mul, Finset.sum_add_distrib]

lemma innerF_sub_left {n m : ℕ} (M N P : Matrix (Fin n) (Fin m) ℚ) :
    innerF (M - N) P = innerF M P - innerF N P := by
  unfold innerF
  simp [Matrix.sub_apply, sub_mul, Finset.sum_sub_distrib]

lemma innerF_sub_right {n m : ℕ} (M N P : Matrix (Fin n) (Fin m) ℚ) :
    innerF M (N - P) = innerF M N - innerF M P := by
  rw [innerF_comm, innerF_sub_left, innerF_comm N M, innerF_comm P M]

lemma innerF_add_right {n m : ℕ} (M N P : Matrix (Fin n) (Fin m) ℚ) :
    innerF M (N + P) = innerF M N + innerF M P := by
  rw [innerF_comm, innerF_add_left, innerF_comm N M, innerF_comm P M]

lemma innerF_smul_right {n m : ℕ} (c : ℚ) (M N : Matrix (Fin n) (Fin m) ℚ) :
    innerF M (c • N) = c * innerF M N := by
  unfold innerF
  rw [Finset.mul_sum]
  refine Finset.sum_congr rfl fun i _ => ?_
  rw [Finset.mul_sum]
  refine Finset.sum_congr rfl fun j _ => ?_
  simp [Matrix.smul_apply]
  ring

/-- Adjoint property of the Frobenius inner product:
`⟨F D, P⟩ = ⟨D, Fᵀ P⟩`. -/
lemma innerF_mul_left_adjoint {n p q : ℕ} (F : Matrix (Fin n) (Fin p) ℚ)
    (D : Matrix (Fin p) (Fin q) ℚ) (P : Matrix (Fin n) (Fin q) ℚ) :
    innerF (F * D) P = innerF D (F.transpose * P) := by
  unfold innerF
  simp only [Matrix.mul_apply, Matrix.transpose_apply, Finset.sum_mul, Finset.mul_sum]
  calc (∑ i, ∑ j, ∑ k, F i k * D k j * P i j)
      = ∑ i, ∑ k, ∑ j, F i k * D k j * P i j :=
        Finset.sum_congr rfl fun i _ => Finset.sum_comm
    _ = ∑ k, ∑ i, ∑ j, F i k * D k j * P i j := Finset.sum_comm
    _ = ∑ k, ∑ j, ∑ i, F i k * D k j * P i j :=
        Finset.sum_congr rfl fun k _ => Finset.sum_comm
    _ = ∑ k, ∑ j, ∑ i, D k j * (F i k * P i j) := by
        refine Finset.sum_congr rfl fun k _ => Finset.sum_congr rfl fun j _ =>
          Finset.sum_congr rfl fun i _ => ?_
        ring

lemma sqFrobNorm_sub_expand {n m : ℕ} (M N : Matrix (Fin n) (Fin m) ℚ) :
    sqFrobNorm (M - N) = sqFrobNorm M - 2 * innerF M N + sqFrobNorm N := by
  rw [sqFrobNorm_eq_innerF, innerF_sub_left, innerF_sub_right, innerF_sub_right,
    sqFrobNorm_eq_innerF, sqFrobNorm_eq_innerF, innerF_comm N M]
  ring

lemma sqFrobNorm_add_expand {n m : ℕ} (M N : Matrix (Fin n) (Fin m) ℚ) :
    sqFrobNorm (M + N) = sqFrobNorm M + 2 * innerF M N + sqFrobNorm N := by
  rw [sqFrobNorm_eq_innerF, innerF_add_left, innerF_add_right, innerF_add_right,
    sqFrobNorm_eq_innerF, sqFrobNorm_eq_innerF, innerF_comm N M]
  ring

/-- Any solution of the regularized normal equations minimizes the ridge
objective `‖Y − F V‖² + λ‖V‖²` (spec: the solver "returns weight matrix W
minimizing ‖Y − XW‖² + λ‖W‖²"). -/
lemma ridge_optimal {n p q : ℕ} (F : Matrix (Fin n) (Fin p) ℚ)
    (Y : Matrix (Fin n) (Fin q) ℚ) (lam : ℚ) (W V : Matrix (Fin p) (Fin q) ℚ)
    (hlam : 0 ≤ lam)
    (hW : (F.transpose * F + lam • (1 : Matrix (Fin p) (Fin p) ℚ)) * W
            = F.transpose * Y) :
    sqFrobNorm (Y - F * W) + lam * sqFrobNorm W
      ≤ sqFrobNorm (Y - F * V) + lam * sqFrobNorm V := by
  set D := V - W with hD
  have hV : V = W + D := by rw [hD]; abel
  set P := Y - F * W with hP
  have hFtP : F.transpose * P = lam • W := by
    have hexp : F.transpose * Y
        = F.transpose * (F * W) + lam • W := by
      rw [← hW, Matrix.add_mul, Matrix.smul_mul, Matrix.one_mul, Matrix.mul_assoc]
    rw [hP, Matrix.mul_sub, hexp]
    abel
  have hY : Y - F * V = P - F * D := by
    rw [hP, hV, Matrix.mul_add]
    abel
  have hcross : innerF P (F * D) = lam * innerF W D := by
    rw [innerF_comm, innerF_mul_left_adjoint, hFtP, innerF_smul_right, innerF_comm]
  rw [hY, hV]
  conv_rhs => rw [sqFrobNorm_sub_expand, sqFrobNorm_add_expand]
  rw [hcross]
  nlinarith [sqFrobNorm_nonneg (F * D), sqFrobNorm_nonneg D]

/-! ### Decomposition lemmas for `fit_2sls` -/

/-- A successful `fit_2sls` run decomposes into its two successful
`fit_linear` solves, with the result components determined by them. -/
lemma fit_2sls_some {n1 n2 fT fI fC dY : ℕ}
    {T1 : Matrix (Fin n1) (Fin fT) ℚ} {Z1 : Matrix (Fin n1) (Fin fI) ℚ}
    {Z2 : Matrix (Fin n2) (Fin fI) ℚ} {cov : Option (Matrix (Fin n2) (Fin fC) ℚ)}
    {Y2 : Matrix (Fin n2) (Fin dY) ℚ} {lam1 lam2 : ℚ} {b1 b2 : Bool}
    {r : FitResult n2 fT fI fC dY b1 b2 cov.isSome}
    (h : fit_2sls T1 Z1 Z2 cov Y2 lam1 lam2 b1 b2 = some r) :
    ∃ w1 w2,
      fit_linear T1 (augment_stage1_feature Z1 b1) lam1 = some w1 ∧
      fit_linear Y2 (augment_stage2_feature
        (linear_reg_pred (augment_stage1_feature Z2 b1) w1) cov b2) lam2 = some w2 ∧
      r = ⟨w1, linear_reg_pred (augment_stage1_feature Z2 b1) w1, w2,
           sqFrobNorm (Y2 - linear_reg_pred (augment_stage2_feature
               (linear_reg_pred (augment_stage1_feature Z2 b1) w1) cov b2) w2)
             + lam2 * sqFrobNorm w2⟩ := by
  unfold fit_2sls at h
  dsimp only at h
  cases h1 : fit_linear T1 (augment_stage1_feature Z1 b1) lam1 with
  | none => rw [h1] at h; exact Option.noConfusion h
  | some w1 =>
    rw [h1] at h
    dsimp only at h
    cases h2 : fit_linear Y2 (augment_stage2_feature
        (linear_reg_pred (augment_stage1_feature Z2 b1) w1) cov b2) lam2 with
    | none => rw [h2] at h; exact Option.noConfusion h
    | some w2 =>
      rw [h2] at h
      exact ⟨w1, w2, rfl, h2, (Option.some.injEq _ _ ▸ h).symm⟩

/-- Converse direction, used to evaluate `fit_2sls` on concrete inputs. -/
lemma fit_2sls_build {n1 n2 fT fI fC dY : ℕ}
    (T1 : Matrix (Fin n1) (Fin fT) ℚ) (Z1 : Matrix (Fin n1) (Fin fI) ℚ)
    (Z2 : Matrix (Fin n2) (Fin fI) ℚ) (cov : Option (Matrix (Fin n2) (Fin fC) ℚ))
    (Y2 : Matrix (Fin n2) (Fin dY) ℚ) (lam1 lam2 : ℚ) (b1 b2 : Bool)
    (w1 : Matrix (Fin (augWidth b1 fI)) (Fin fT) ℚ)
    (w2 : Matrix (Fin (s2Width b2 fT fC cov.isSome)) (Fin dY) ℚ)
    (h1 : fit_linear T1 (augment_stage1_feature Z1 b1) lam1 = some w1)
    (h2 : fit_linear Y2 (augment_stage2_feature
        (linear_reg_pred (augment_stage1_feature Z2 b1) w1) cov b2) lam2 = some w2) :
    fit_2sls T1 Z1 Z2 cov Y2 lam1 lam2 b1 b2 =
      some ⟨w1, linear_reg_pred (augment_stage1_feature Z2 b1) w1, w2,
        sqFrobNorm (Y2 - linear_reg_pred (augment_stage2_feature
            (linear_reg_pred (augment_stage1_feature Z2 b1) w1) cov b2) w2)
          + lam2 * sqFrobNorm w2⟩ := by
  unfold fit_2sls
  dsimp only
  rw [h1]
  dsimp only
  rw [h2]

/-! ### Concrete 1×1 evaluation toolkit (for witnesses) -/

/-- The 1×1 rational matrix with the given entry. -/
def mat1 (a : ℚ) : Matrix (Fin 1) (Fin 1) ℚ := Matrix.of fun _ _ => a

lemma mat1_apply (a : ℚ) (i j : Fin 1) : mat1 a i j = a := rfl

lemma mat1_transpose (a : ℚ) : (mat1 a).transpose = mat1 a := rfl

lemma mat1_mul (a b : ℚ) : mat1 a * mat1 b = mat1 (a * b) := by
  ext i j
  simp [mat1, Matrix.mul_apply]

lemma mat1_add (a b : ℚ) : mat1 a + mat1 b = mat1 (a + b) := rfl

lemma mat1_sub (a b : ℚ) : mat1 a - mat1 b = mat1 (a - b) := rfl

lemma smul_one_mat1 (r : ℚ) : r • (1 : Matrix (Fin 1) (Fin 1) ℚ) = mat1 r := by
  ext i j
  fin_cases i; fin_cases j
  simp [mat1, Matrix.one_apply]

lemma detQ_mat1 (a : ℚ) : detQ 1 (mat1 a) = a := by
  simp [detQ, mat1]

lemma matInv_mat1 (a : ℚ) : matInv (mat1 a) = mat1 a⁻¹ := by
  rw [matInv_eq_adjugate, Matrix.adjugate_fin_one, Matrix.det_fin_one]
  ext i j
  fin_cases i; fin_cases j
  simp [mat1, Matrix.one_apply]

lemma sqFrobNorm_mat1 (a : ℚ) : sqFrobNorm (mat1 a) = a ^ 2 := by
  simp [sqFrobNorm, mat1]

lemma linear_reg_pred_mat1 (a b : ℚ) :
    linear_reg_pred (mat1 a) (mat1 b) = mat1 (a * b) := by
  rw [linear_reg_pred, mat1_mul]

lemma augment_stage1_feature_false {n m : ℕ} (f : Matrix (Fin n) (Fin m) ℚ) :
    augment_stage1_feature f false = f := rfl

lemma augment_stage2_feature_none_false {n t c : ℕ}
    (pt : Matrix (Fin n) (Fin t) ℚ) :
    augment_stage2_feature pt (none : Option (Matrix (Fin n) (Fin c) ℚ)) false = pt := rfl

/-- Evaluate `fit_linear` on 1×1 data. -/
lemma fit_linear_mat1 (y x r : ℚ) (h : x * x + r ≠ 0) :
    fit_linear (mat1 y) (mat1 x) r = some (mat1 ((x * x + r)⁻¹ * (x * y))) := by
  unfold fit_linear
  rw [mat1_transpose, mat1_mul, smul_one_mat1, mat1_add, detQ_mat1, if_neg h,
    matInv_mat1, mat1_mul, mat1_mul]

lemma sqFrobNorm_zero {n m : ℕ} : sqFrobNorm (0 : Matrix (Fin n) (Fin m) ℚ) = 0 := by
  simp [sqFrobNorm]

/-! ### Claim theorems -/

/-- C1: `fit_2sls` computes its result by exactly the specified pipeline:
a successful call returns `stage1_weight` solving the lam1-regularized
normal equations mapping the augmented first-split instrument features to
the first-split treatment features; `predicted_treatment_feature` as the
linear prediction of the identically augmented second-split instrument
features under `stage1_weight`; `stage2_weight` solving the
lam2-regularized normal equations mapping
`augment_stage2_feature(predicted, covariate_2nd)` to the second-split
outcomes; and `stage2_loss` = ‖outcome₂ − stage-2 prediction‖² +
lam2·‖stage2_weight‖²; all four artifacts are returned. -/
theorem c1_fit_2sls_pipeline {n1 n2 fT fI fC dY : ℕ}
    (T1 : Matrix (Fin n1) (Fin fT) ℚ) (Z1 : Matrix (Fin n1) (Fin fI) ℚ)
    (Z2 : Matrix (Fin n2) (Fin fI) ℚ) (cov : Option (Matrix (Fin n2) (Fin fC) ℚ))
    (Y2 : Matrix (Fin n2) (Fin dY) ℚ) (lam1 lam2 : ℚ) (b1 b2 : Bool)
    (r : FitResult n2 fT fI fC dY b1 b2 cov.isSome)
    (h : fit_2sls T1 Z1 Z2 cov Y2 lam1 lam2 b1 b2 = some r) :
    ((augment_stage1_feature Z1 b1).transpose * augment_stage1_feature Z1 b1
        + lam1 • 1) * r.stage1_weight
      = (augment_stage1_feature Z1 b1).transpose * T1
    ∧ r.predicted_treatment_feature
        = linear_reg_pred (augment_stage1_feature Z2 b1) r.stage1_weight
    ∧ ((augment_stage2_feature r.predicted_treatment_feature cov b2).transpose
          * augment_stage2_feature r.predicted_treatment_feature cov b2
        + lam2 • 1) * r.stage2_weight
      = (augment_stage2_feature r.predicted_treatment_feature cov b2).transpose * Y2
    ∧ r.stage2_loss
      = sqFrobNorm (Y2 - linear_reg_pred
            (augment_stage2_feature r.predicted_treatment_feature cov b2) r.stage2_weight)
        + lam2 * sqFrobNorm r.stage2_weight := by
  obtain ⟨w1, w2, h1, h2, hr⟩ := fit_2sls_some h
  subst hr
  exact ⟨fit_linear_normal_eq h1, rfl, fit_linear_normal_eq h2, rfl⟩

/-- Witness for C1 at a concrete 1×1 input (all features `[[1]]` or
`[[2]]`, penalties zero): the stage-1 normal equation holds for the
returned stage-1 weight. -/
theorem c1_fit_2sls_pipeline_witness :
    ((augment_stage1_feature (mat1 1) false).transpose * augment_stage1_feature (mat1 1) false
        + (0 : ℚ) • 1) * mat1 2
      = (augment_stage1_feature (mat1 1) false).transpose * mat1 2 := by
  have e1 : fit_linear (mat1 2) (augment_stage1_feature (mat1 1) false) 0 = some (mat1 2) := by
    rw [augment_stage1_feature_false, fit_linear_mat1 2 1 0 (by norm_num)]
    norm_num
  have e2 : fit_linear (mat1 2)
      (augment_stage2_feature (linear_reg_pred (augment_stage1_feature (mat1 1) false) (mat1 2))
        (none : Option (Matrix (Fin 1) (Fin 1) ℚ)) false) 0 = some (mat1 1) := by
    rw [augment_stage1_feature_false, linear_reg_pred_mat1, augment_stage2_feature_none_false,
      fit_linear_mat1 2 (1 * 2) 0 (by norm_num)]
    norm_num
  have hfit := fit_2sls_build (mat1 2) (mat1 1) (mat1 1)
    (none : Option (Matrix (Fin 1) (Fin 1) ℚ)) (mat1 2) 0 0 false false (mat1 2) (mat1 1) e1 e2
  exact (c1_fit_2sls_pipeline _ _ _ _ _ _ _ _ _ _ hfit).1

/-- C2: in every successful `fit_2sls` run, the design matrix of the
stage-2 ridge solve is `augment_stage2_feature` applied to the *predicted*
(stage-1-projected) treatment features — the linear prediction of the
augmented second-split instrument features under `stage1_weight` — and the
result depends on the raw first-split treatment features only through the
stage-1 solve.  (Raw second-split treatment features are not even an input
of `fit_2sls`, as its signature shows.) -/
theorem c2_stage2_design_from_predicted {n1 n2 fT fI fC dY : ℕ}
    (T1 : Matrix (Fin n1) (Fin fT) ℚ) (Z1 : Matrix (Fin n1) (Fin fI) ℚ)
    (Z2 : Matrix (Fin n2) (Fin fI) ℚ) (cov : Option (Matrix (Fin n2) (Fin fC) ℚ))
    (Y2 : Matrix (Fin n2) (Fin dY) ℚ) (lam1 lam2 : ℚ) (b1 b2 : Bool)
    (r : FitResult n2 fT fI fC dY b1 b2 cov.isSome)
    (h : fit_2sls T1 Z1 Z2 cov Y2 lam1 lam2 b1 b2 = some r) :
    r.predicted_treatment_feature
      = linear_reg_pred (augment_stage1_feature Z2 b1) r.stage1_weight
    ∧ fit_linear Y2 (augment_stage2_feature r.predicted_treatment_feature cov b2) lam2
        = some r.stage2_weight
    ∧ ∀ T1' : Matrix (Fin n1) (Fin fT) ℚ,
        fit_linear T1' (augment_stage1_feature Z1 b1) lam1
            = fit_linear T1 (augment_stage1_feature Z1 b1) lam1 →
        fit_2sls T1' Z1 Z2 cov Y2 lam1 lam2 b1 b2 = some r := by
  obtain ⟨w1, w2, h1, h2, hr⟩ := fit_2sls_some h
  subst hr
  refine ⟨rfl, h2, ?_⟩
  intro T1' heq
  unfold fit_2sls
  dsimp only
  rw [heq, h1]
  dsimp only
  rw [h2]

/-- Witness for C2 at the concrete 1×1 input of C1's witness: the stage-2
solve on the predicted-feature design returns the stored stage-2 weight. -/
theorem c2_stage2_design_from_predicted_witness :
    fit_linear (mat1 2)
      (augment_stage2_feature (linear_reg_pred (augment_stage1_feature (mat1 1) false) (mat1 2))
        (none : Option (Matrix (Fin 1) (Fin 1) ℚ)) false) 0 = some (mat1 1) := by
  have e1 : fit_linear (mat1 2) (augment_stage1_feature (mat1 1) false) 0 = some (mat1 2) := by
    rw [augment_stage1_feature_false, fit_linear_mat1 2 1 0 (by norm_num)]
    norm_num
  have e2 : fit_linear (mat1 2)
      (augment_stage2_feature (linear_reg_pred (augment_stage1_feature (mat1 1) false) (mat1 2))
        (none : Option (Matrix (Fin 1) (Fin 1) ℚ)) false) 0 = some (mat1 1) := by
    rw [augment_stage1_feature_false, linear_reg_pred_mat1, augment_stage2_feature_none_false,
      fit_linear_mat1 2 (1 * 2) 0 (by norm_num)]
    norm_num
  have hfit := fit_2sls_build (mat1 2) (mat1 1) (mat1 1)
    (none : Option (Matrix (Fin 1) (Fin 1) ℚ)) (mat1 2) 0 0 false false (mat1 2) (mat1 1) e1 e2
  exact (c2_stage2_design_from_predicted _ _ _ _ _ _ _ _ _ _ hfit).2.1

/-- C9: monotone shrinkage of the stage-2 ridge solve.  For a successful
`fit_2sls` run with penalty `lam2 ≥ 0`, the returned stage-2 weight obeys
`lam2 · ‖stage2_weight‖² ≤ ‖outcome₂‖²` (the penalty term never exceeds the
objective at 0); hence for every `ε > 0`, once `lam2` is large enough that
`‖outcome₂‖² ≤ ε·lam2`, the squared norm of `stage2_weight` is below `ε` —
i.e. `stage2_weight → 0` as `lam2 → ∞`. -/
theorem c9_stage2_ridge_shrinkage {n1 n2 fT fI fC dY : ℕ}
    (T1 : Matrix (Fin n1) (Fin fT) ℚ) (Z1 : Matrix (Fin n1) (Fin fI) ℚ)
    (Z2 : Matrix (Fin n2) (Fin fI) ℚ) (cov : Option (Matrix (Fin n2) (Fin fC) ℚ))
    (Y2 : Matrix (Fin n2) (Fin dY) ℚ) (lam1 lam2 : ℚ) (b1 b2 : Bool)
    (r : FitResult n2 fT fI fC dY b1 b2 cov.isSome)
    (h : fit_2sls T1 Z1 Z2 cov Y2 lam1 lam2 b1 b2 = some r)
    (hlam : 0 ≤ lam2) :
    lam2 * sqFrobNorm r.stage2_weight ≤ sqFrobNorm Y2
    ∧ ∀ ε : ℚ, 0 < ε → 0 < lam2 → sqFrobNorm Y2 ≤ ε * lam2 →
        sqFrobNorm r.stage2_weight ≤ ε := by
  obtain ⟨w1, w2, h1, h2, hr⟩ := fit_2sls_some h
  subst hr
  have hne := fit_linear_normal_eq h2
  have hopt := ridge_optimal _ Y2 lam2 w2 0 hlam hne
  rw [Matrix.mul_zero, sub_zero, sqFrobNorm_zero, mul_zero, add_zero] at hopt
  have hbound : lam2 * sqFrobNorm w2 ≤ sqFrobNorm Y2 := by
    have hres := sqFrobNorm_nonneg (Y2 - (augment_stage2_feature
      (linear_reg_pred (augment_stage1_feature Z2 b1) w1) cov b2) * w2)
    linarith [hopt, hres]
  refine ⟨hbound, ?_⟩
  intro ε hε hl hY
  have h3 : lam2 * sqFrobNorm w2 ≤ ε * lam2 := le_trans hbound hY
  rw [mul_comm ε lam2] at h3
  exact le_of_mul_le_mul_left h3 hl

/-- Witness for C9 at a concrete 1×1 input with `lam2 = 4`: the returned
stage-2 weight is `[[1/2]]` and its squared norm is below `ε = 1`. -/
theorem c9_stage2_ridge_shrinkage_witness :
    sqFrobNorm (mat1 (1 / 2 : ℚ)) ≤ 1 := by
  have e1 : fit_linear (mat1 2) (augment_stage1_feature (mat1 1) false) 0 = some (mat1 2) := by
    rw [augment_stage1_feature_false, fit_linear_mat1 2 1 0 (by norm_num)]
    norm_num
  have e2 : fit_linear (mat1 2)
      (augment_stage2_feature (linear_reg_pred (augment_stage1_feature (mat1 1) false) (mat1 2))
        (none : Option (Matrix (Fin 1) (Fin 1) ℚ)) false) 4 = some (mat1 (1 / 2)) := by
    rw [augment_stage1_feature_false, linear_reg_pred_mat1, augment_stage2_feature_none_false,
      fit_linear_mat1 2 (1 * 2) 4 (by norm_num)]
    norm_num
  have hfit := fit_2sls_build (mat1 2) (mat1 1) (mat1 1)
    (none : Option (Matrix (Fin 1) (Fin 1) ℚ)) (mat1 2) 0 4 false false (mat1 2) (mat1 (1 / 2)) e1 e2
  refine (c9_stage2_ridge_shrinkage _ _ _ _ _ _ _ _ _ _ hfit (by norm_num)).2 1
    (by norm_num) (by norm_num) ?_
  rw [sqFrobNorm_mat1]
  norm_num

/-! ### Decomposition lemmas for `fit_t` -/

lemma fit_t_some_false {n1 n2 rT rI rC fT fI fC dY : ℕ}
    (m : DFIVModel rT rI rC fT fI fC dY false)
    (d1 : TrainDataSetTorch n1 rT rI rC dY) (d2 : TrainDataSetTorch n2 rT rI rC dY)
    (lam1 lam2 : ℚ) (m' : DFIVModel rT rI rC fT fI fC dY false)
    (h : m.fit_t d1 d2 lam1 lam2 = some m') :
    ∃ res, fit_2sls (m.treatment_net n1 d1.treatment) (m.instrumental_net n1 d1.instrumental)
        (m.instrumental_net n2 d2.instrumental) (none : Option (Matrix (Fin n2) (Fin fC) ℚ))
        d2.outcome lam1 lam2 m.add_stage1_intercept m.add_stage2_intercept = some res
      ∧ m' = { m with stage1_weight := some res.stage1_weight,
                      stage2_weight := some res.stage2_weight } := by
  unfold DFIVModel.fit_t at h
  dsimp only at h
  cases hres : fit_2sls (m.treatment_net n1 d1.treatment) (m.instrumental_net n1 d1.instrumental)
      (m.instrumental_net n2 d2.instrumental) (none : Option (Matrix (Fin n2) (Fin fC) ℚ))
      d2.outcome lam1 lam2 m.add_stage1_intercept m.add_stage2_intercept with
  | none => rw [hres] at h; exact Option.noConfusion h
  | some res =>
      rw [hres] at h
      exact ⟨res, rfl, (Option.some.injEq _ _ ▸ h).symm⟩

lemma fit_t_none_false {n1 n2 rT rI rC fT fI fC dY : ℕ}
    (m : DFIVModel rT rI rC fT fI fC dY false)
    (d1 : TrainDataSetTorch n1 rT rI rC dY) (d2 : TrainDataSetTorch n2 rT rI rC dY)
    (lam1 lam2 : ℚ)
    (hres : fit_2sls (m.treatment_net n1 d1.treatment) (m.instrumental_net n1 d1.instrumental)
        (m.instrumental_net n2 d2.instrumental) (none : Option (Matrix (Fin n2) (Fin fC) ℚ))
        d2.outcome lam1 lam2 m.add_stage1_intercept m.add_stage2_intercept = none) :
    m.fit_t d1 d2 lam1 lam2 = none := by
  unfold DFIVModel.fit_t
  dsimp only
  rw [hres]

lemma fit_t_some_true {n1 n2 rT rI rC fT fI fC dY : ℕ}
    (m : DFIVModel rT rI rC fT fI fC dY true)
    (d1 : TrainDataSetTorch n1 rT rI rC dY) (d2 : TrainDataSetTorch n2 rT rI rC dY)
    (lam1 lam2 : ℚ) (cov2 : Matrix (Fin n2) (Fin rC) ℚ)
    (hc : d2.covariate = some cov2)
    (m' : DFIVModel rT rI rC fT fI fC dY true)
    (h : m.fit_t d1 d2 lam1 lam2 = some m') :
    ∃ res, fit_2sls (m.treatment_net n1 d1.treatment) (m.instrumental_net n1 d1.instrumental)
        (m.instrumental_net n2 d2.instrumental) (some (m.covariate_net n2 cov2))
        d2.outcome lam1 lam2 m.add_stage1_intercept m.add_stage2_intercept = some res
      ∧ m' = { m with stage1_weight := some res.stage1_weight,
                      stage2_weight := some res.stage2_weight } := by
  unfold DFIVModel.fit_t at h
  dsimp only at h
  rw [hc] at h
  dsimp only at h
  cases hres : fit_2sls (m.treatment_net n1 d1.treatment) (m.instrumental_net n1 d1.instrumental)
      (m.instrumental_net n2 d2.instrumental) (some (m.covariate_net n2 cov2))
      d2.outcome lam1 lam2 m.add_stage1_intercept m.add_stage2_intercept with
  | none => rw [hres] at h; exact Option.noConfusion h
  | some res =>
      rw [hres] at h
      exact ⟨res, rfl, (Option.some.injEq _ _ ▸ h).symm⟩

lemma fit_t_none_true {n1 n2 rT rI rC fT fI fC dY : ℕ}
    (m : DFIVModel rT rI rC fT fI fC dY true)
    (d1 : TrainDataSetTorch n1 rT rI rC dY) (d2 : TrainDataSetTorch n2 rT rI rC dY)
    (lam1 lam2 : ℚ) (cov2 : Matrix (Fin n2) (Fin rC) ℚ)
    (hc : d2.covariate = some cov2)
    (hres : fit_2sls (m.treatment_net n1 d1.treatment) (m.instrumental_net n1 d1.instrumental)
        (m.instrumental_net n2 d2.instrumental) (some (m.covariate_net n2 cov2))
        d2.outcome lam1 lam2 m.add_stage1_intercept m.add_stage2_intercept = none) :
    m.fit_t d1 d2 lam1 lam2 = none := by
  unfold DFIVModel.fit_t
  dsimp only
  rw [hc]
  dsimp only
  rw [hres]

lemma fit_t_cov_missing {n1 n2 rT rI rC fT fI fC dY : ℕ}
    (m : DFIVModel rT rI rC fT fI fC dY true)
    (d1 : TrainDataSetTorch n1 rT rI rC dY) (d2 : TrainDataSetTorch n2 rT rI rC dY)
    (lam1 lam2 : ℚ) (hc : d2.covariate = none) :
    m.fit_t d1 d2 lam1 lam2 = none := by
  unfold DFIVModel.fit_t
  dsimp only
  rw [hc]


/-- The identity feature extractor on 1-dimensional data (used by concrete
witnesses). -/
def idNet : ∀ n, Matrix (Fin n) (Fin 1) ℚ → Matrix (Fin n) (Fin 1) ℚ := fun _ M => M

/-- A concrete freshly constructed covariate-free identity model (used by
concrete witnesses). -/
def freshIdModel : DFIVModel 1 1 1 1 1 1 1 false :=
  @DFIVModel.init 1 1 1 1 1 1 1 false idNet idNet () false false

/-- A concrete fitted covariate-free model with identity extractors and
stage-2 weight `[[1]]` (used by concrete witnesses). -/
def fittedNoCovModel : DFIVModel 1 1 1 1 1 1 1 false :=
  ⟨idNet, idNet, (), false, false, none, some (mat1 1)⟩

/-- C3: `predict_t` (and `predict`) builds the stage-2 features directly
from the treatment extractor's output on the raw treatment input — no
stage-1 projection, and no use of `stage1_weight` (replacing the stored
`stage1_weight` by anything leaves the prediction unchanged) — combines
them with the optional covariate features via `augment_stage2_feature`,
and returns the linear prediction under the current `stage2_weight`. -/
theorem c3_predict_uses_raw_treatment {n rT rI rC fT fI fC dY : ℕ} :
    (∀ (m : DFIVModel rT rI rC fT fI fC dY false)
       (s : Option (Matrix (Fin (augWidth m.add_stage1_intercept fI)) (Fin fT) ℚ))
       (tr : Matrix (Fin n) (Fin rT) ℚ) (cov : Option (Matrix (Fin n) (Fin rC) ℚ)),
        DFIVModel.predict_t { m with stage1_weight := s } tr cov = m.predict_t tr cov
      ∧ m.predict_t tr cov = m.stage2_weight.map (fun w =>
          linear_reg_pred (augment_stage2_feature (m.treatment_net n tr)
            (none : Option (Matrix (Fin n) (Fin fC) ℚ)) m.add_stage2_intercept) w)
      ∧ m.predict tr cov = m.predict_t tr cov)
    ∧ (∀ (m : DFIVModel rT rI rC fT fI fC dY true)
       (s : Option (Matrix (Fin (augWidth m.add_stage1_intercept fI)) (Fin fT) ℚ))
       (tr : Matrix (Fin n) (Fin rT) ℚ) (cov : Matrix (Fin n) (Fin rC) ℚ),
        DFIVModel.predict_t { m with stage1_weight := s } tr (some cov) = m.predict_t tr (some cov)
      ∧ m.predict_t tr (some cov) = m.stage2_weight.map (fun w =>
          linear_reg_pred (augment_stage2_feature (m.treatment_net n tr)
            (some (m.covariate_net n cov)) m.add_stage2_intercept) w)
      ∧ m.predict tr (some cov) = m.predict_t tr (some cov)) :=
  ⟨fun _ _ _ _ => ⟨rfl, rfl, rfl⟩, fun _ _ _ _ => ⟨rfl, rfl, rfl⟩⟩

/-- C4: `evaluate_t` (and `evaluate`) returns the squared L2 norm of
(structural target − prediction) divided by the number of test samples; in
particular it returns 0 whenever the predictions equal the structural
target exactly. -/
theorem c4_evaluate_mse {n rT rI rC fT fI fC dY : ℕ} {hasCov : Bool}
    (m : DFIVModel rT rI rC fT fI fC dY hasCov) (td : TestDataSetTorch n rT rC dY)
    (pred : Matrix (Fin n) (Fin dY) ℚ)
    (h : m.predict_t td.treatment td.covariate = some pred) :
    m.evaluate_t td = some (sqFrobNorm (td.structural - pred) / (n : ℚ))
    ∧ m.evaluate td = m.evaluate_t td
    ∧ (pred = td.structural → m.evaluate_t td = some 0) := by
  have h1 : m.evaluate_t td = some (sqFrobNorm (td.structural - pred) / (n : ℚ)) := by
    unfold DFIVModel.evaluate_t
    rw [h]
  refine ⟨h1, rfl, ?_⟩
  intro he
  rw [h1, he, sub_self, sqFrobNorm_zero, zero_div]

/-- Witness for C4: on the fitted identity model, a test point whose
prediction equals the structural target evaluates to 0. -/
theorem c4_evaluate_mse_witness :
    DFIVModel.evaluate_t fittedNoCovModel ⟨mat1 3, none, mat1 3⟩ = some 0 := by
  have h : DFIVModel.predict_t fittedNoCovModel (mat1 3) none = some (mat1 3) := by
    show some (linear_reg_pred (augment_stage2_feature (mat1 3)
      (none : Option (Matrix (Fin 1) (Fin 1) ℚ)) false) (mat1 1)) = some (mat1 3)
    rw [augment_stage2_feature_none_false, linear_reg_pred_mat1]
    norm_num
  exact (c4_evaluate_mse fittedNoCovModel ⟨mat1 3, none, mat1 3⟩ (mat1 3) h).2.2 rfl

/-- C5: on a freshly constructed estimator (weights never set), `predict_t`,
`predict`, `evaluate_t` and `evaluate` all fail with the unfitted-model
error (embedded as `none`, the reference's undefined-attribute access on
`stage2_weight`); no silent result is returned. -/
theorem c5_unfitted_model_fails {n rT rI rC fT fI fC dY : ℕ} {hasCov : Bool}
    (tnet : ∀ k, Matrix (Fin k) (Fin rT) ℚ → Matrix (Fin k) (Fin fT) ℚ)
    (inet : ∀ k, Matrix (Fin k) (Fin rI) ℚ → Matrix (Fin k) (Fin fI) ℚ)
    (cnet : CovNet hasCov rC fC) (b1 b2 : Bool)
    (m : DFIVModel rT rI rC fT fI fC dY hasCov)
    (hm : m = DFIVModel.init tnet inet cnet b1 b2)
    (tr : Matrix (Fin n) (Fin rT) ℚ) (cov : Option (Matrix (Fin n) (Fin rC) ℚ))
    (td : TestDataSetTorch n rT rC dY) :
    m.predict_t tr cov = none
    ∧ m.predict tr cov = none
    ∧ m.evaluate_t td = none
    ∧ m.evaluate td = none := by
  subst hm
  obtain ⟨tdt, tdc, tds⟩ := td
  cases hasCov
  · exact ⟨rfl, rfl, rfl, rfl⟩
  · cases cov <;> cases tdc <;> exact ⟨rfl, rfl, rfl, rfl⟩

/-- Witness for C5: a concrete freshly constructed identity model fails to
predict. -/
theorem c5_unfitted_model_fails_witness :
    (@DFIVModel.init 1 1 1 1 1 1 1 false idNet idNet () false false).predict_t
      (mat1 0) none = none :=
  (c5_unfitted_model_fails idNet idNet () false false
    (@DFIVModel.init 1 1 1 1 1 1 1 false idNet idNet () false false) rfl (mat1 0) none
    ⟨mat1 0, none, mat1 0⟩).1

/-- C6: each `fit_t` (hence `fit`) call takes both weights together from a
single `fit_2sls` invocation: a successful call returns the input estimator
with exactly `stage1_weight` and `stage2_weight` overwritten by the
`fit_2sls` result, and when the solve fails the call fails (`none`) and no
updated estimator is produced — the caller's estimator state is untouched
(the embedding is pure, so failure yields no new state at all). -/
theorem c6_fit_atomic_update {n1 n2 rT rI rC fT fI fC dY : ℕ} :
    (∀ (m : DFIVModel rT rI rC fT fI fC dY false)
       (d1 : TrainDataSetTorch n1 rT rI rC dY) (d2 : TrainDataSetTorch n2 rT rI rC dY)
       (lam1 lam2 : ℚ),
        (∀ m', m.fit_t d1 d2 lam1 lam2 = some m' →
          ∃ res, fit_2sls (m.treatment_net n1 d1.treatment)
              (m.instrumental_net n1 d1.instrumental)
              (m.instrumental_net n2 d2.instrumental)
              (none : Option (Matrix (Fin n2) (Fin fC) ℚ)) d2.outcome lam1 lam2
              m.add_stage1_intercept m.add_stage2_intercept = some res
            ∧ m' = { m with stage1_weight := some res.stage1_weight,
                            stage2_weight := some res.stage2_weight })
      ∧ (fit_2sls (m.treatment_net n1 d1.treatment) (m.instrumental_net n1 d1.instrumental)
            (m.instrumental_net n2 d2.instrumental)
            (none : Option (Matrix (Fin n2) (Fin fC) ℚ)) d2.outcome lam1 lam2
            m.add_stage1_intercept m.add_stage2_intercept = none →
          m.fit_t d1 d2 lam1 lam2 = none)
      ∧ m.fit d1 d2 lam1 lam2 = m.fit_t d1 d2 lam1 lam2)
    ∧ (∀ (m : DFIVModel rT rI rC fT fI fC dY true)
       (d1 : TrainDataSetTorch n1 rT rI rC dY) (d2 : TrainDataSetTorch n2 rT rI rC dY)
       (lam1 lam2 : ℚ) (cov2 : Matrix (Fin n2) (Fin rC) ℚ), d2.covariate = some cov2 →
        (∀ m', m.fit_t d1 d2 lam1 lam2 = some m' →
          ∃ res, fit_2sls (m.treatment_net n1 d1.treatment)
              (m.instrumental_net n1 d1.instrumental)
              (m.instrumental_net n2 d2.instrumental)
              (some (m.covariate_net n2 cov2)) d2.outcome lam1 lam2
              m.add_stage1_intercept m.add_stage2_intercept = some res
            ∧ m' = { m with stage1_weight := some res.stage1_weight,
                            stage2_weight := some res.stage2_weight })
      ∧ (fit_2sls (m.treatment_net n1 d1.treatment) (m.instrumental_net n1 d1.instrumental)
            (m.instrumental_net n2 d2.instrumental)
            (some (m.covariate_net n2 cov2)) d2.outcome lam1 lam2
            m.add_stage1_intercept m.add_stage2_intercept = none →
          m.fit_t d1 d2 lam1 lam2 = none)
      ∧ m.fit d1 d2 lam1 lam2 = m.fit_t d1 d2 lam1 lam2) := by
  constructor
  · intro m d1 d2 lam1 lam2
    exact ⟨fun m' h => fit_t_some_false m d1 d2 lam1 lam2 m' h,
           fun hres => fit_t_none_false m d1 d2 lam1 lam2 hres, rfl⟩
  · intro m d1 d2 lam1 lam2 cov2 hc
    exact ⟨fun m' h => fit_t_some_true m d1 d2 lam1 lam2 cov2 hc m' h,
           fun hres => fit_t_none_true m d1 d2 lam1 lam2 cov2 hc hres, rfl⟩

/-- Witness for C6: fitting the fresh concrete identity model on 1×1 data
updates both weights from the single `fit_2sls` result. -/
theorem c6_fit_atomic_update_witness :
    ∃ res, fit_2sls (mat1 2) (mat1 1) (mat1 1)
        (none : Option (Matrix (Fin 1) (Fin 1) ℚ)) (mat1 2) 0 0 false false = some res
      ∧ ({ freshIdModel with stage1_weight := some (mat1 2),
                             stage2_weight := some (mat1 1) } : DFIVModel 1 1 1 1 1 1 1 false)
          = { freshIdModel with stage1_weight := some res.stage1_weight,
                                stage2_weight := some res.stage2_weight } := by
  have e1 : fit_linear (mat1 2) (augment_stage1_feature (mat1 1) false) 0 = some (mat1 2) := by
    rw [augment_stage1_feature_false, fit_linear_mat1 2 1 0 (by norm_num)]
    norm_num
  have e2 : fit_linear (mat1 2)
      (augment_stage2_feature (linear_reg_pred (augment_stage1_feature (mat1 1) false) (mat1 2))
        (none : Option (Matrix (Fin 1) (Fin 1) ℚ)) false) 0 = some (mat1 1) := by
    rw [augment_stage1_feature_false, linear_reg_pred_mat1, augment_stage2_feature_none_false,
      fit_linear_mat1 2 (1 * 2) 0 (by norm_num)]
    norm_num
  have hfit := fit_2sls_build (mat1 2) (mat1 1) (mat1 1)
    (none : Option (Matrix (Fin 1) (Fin 1) ℚ)) (mat1 2) 0 0 false false (mat1 2) (mat1 1) e1 e2
  have hstep : DFIVModel.fit_t freshIdModel ⟨mat1 2, mat1 1, none, mat1 2, mat1 2⟩
      ⟨mat1 2, mat1 1, none, mat1 2, mat1 2⟩ 0 0
      = some { freshIdModel with stage1_weight := some (mat1 2),
                                 stage2_weight := some (mat1 1) } := by
    unfold DFIVModel.fit_t
    dsimp only [freshIdModel, DFIVModel.init, idNet]
    rw [hfit]
  exact (c6_fit_atomic_update.1 freshIdModel ⟨mat1 2, mat1 1, none, mat1 2, mat1 2⟩
    ⟨mat1 2, mat1 1, none, mat1 2, mat1 2⟩ 0 0).1 _ hstep

/-- C7: `augment_stage2_feature` with covariate `None` returns the
treatment feature itself (output width `t`) when no intercept is added, or
its constant-column augmentation (output width `t + 1`) with intercept —
no cross term in either case; with a covariate present the output width
(`s2Width`, the width index of `augment_stage2_feature`'s return type)
equals the product of the two augmented widths: `t·c` without intercept
and `(t+1)·(c+1)` with intercept. -/
theorem c7_augment_stage2_shapes {n t c : ℕ} (pt : Matrix (Fin n) (Fin t) ℚ)
    (cf : Matrix (Fin n) (Fin c) ℚ) :
    augment_stage2_feature pt (none : Option (Matrix (Fin n) (Fin c) ℚ)) false = pt
    ∧ augment_stage2_feature pt (none : Option (Matrix (Fin n) (Fin c) ℚ)) true
        = add_const_col pt
    ∧ s2Width false t c ((none : Option (Matrix (Fin n) (Fin c) ℚ)).isSome) = t
    ∧ s2Width true t c ((none : Option (Matrix (Fin n) (Fin c) ℚ)).isSome) = t + 1
    ∧ s2Width false t c ((some cf).isSome) = t * c
    ∧ s2Width true t c ((some cf).isSome) = (t + 1) * (c + 1)
    ∧ ∀ b : Bool, s2Width b t c ((some cf).isSome) = augWidth b t * augWidth b c :=
  ⟨rfl, rfl, rfl, rfl, rfl, rfl, fun _ => rfl⟩

/-- C8 counterexample: the claim asserts that calling predict with a
covariate on a model constructed without a covariate extractor fails; on
the concrete fitted covariate-free model it instead succeeds, silently
ignoring the covariate argument. -/
theorem c8_counterexample_ignored_covariate :
    DFIVModel.predict_t fittedNoCovModel (mat1 2) (some (mat1 7)) = some (mat1 2)
    ∧ DFIVModel.predict_t fittedNoCovModel (mat1 2) (some (mat1 7)) ≠ none := by
  have h : DFIVModel.predict_t fittedNoCovModel (mat1 2) (some (mat1 7)) = some (mat1 2) := by
    show some (linear_reg_pred (augment_stage2_feature (mat1 2)
      (none : Option (Matrix (Fin 1) (Fin 1) ℚ)) false) (mat1 1)) = some (mat1 2)
    rw [augment_stage2_feature_none_false, linear_reg_pred_mat1]
    norm_num
  exact ⟨h, h ▸ Option.some_ne_none _⟩

/-- C8 (amended): calling predict without a covariate on a model
constructed with a covariate extractor fails (the extractor is applied to
a missing input); calling predict with a covariate on a model constructed
without an extractor does not fail — the reference's `if self.covariate_net:`
test is false, so the covariate argument is silently ignored and predict
returns exactly what it returns without it. -/
theorem c8_predict_covariate_mismatch {n rT rI rC fT fI fC dY : ℕ} :
    (∀ (m : DFIVModel rT rI rC fT fI fC dY true) (tr : Matrix (Fin n) (Fin rT) ℚ),
        m.predict_t tr none = none)
    ∧ (∀ (m : DFIVModel rT rI rC fT fI fC dY false) (tr : Matrix (Fin n) (Fin rT) ℚ)
         (cov : Matrix (Fin n) (Fin rC) ℚ),
        m.predict_t tr (some cov) = m.predict_t tr none) :=
  ⟨fun _ _ => rfl, fun _ _ _ => rfl⟩

/-- C10: the only estimator state that `fit_t` rewrites is the pair of
weight fields: a successful `fit_t` leaves the three feature extractors
and the two intercept flags of the estimator unchanged.  (All other
operations — `augment_stage1_feature`, `augment_stage2_feature`,
`fit_2sls`, `predict_t`/`predict`, `evaluate_t`/`evaluate` — are static or
read-only functions in the source and pure functions here; they return no
estimator at all.) -/
theorem c10_fit_frame {n1 n2 rT rI rC fT fI fC dY : ℕ} {hasCov : Bool}
    (m m' : DFIVModel rT rI rC fT fI fC dY hasCov)
    (d1 : TrainDataSetTorch n1 rT rI rC dY) (d2 : TrainDataSetTorch n2 rT rI rC dY)
    (lam1 lam2 : ℚ)
    (h : m.fit_t d1 d2 lam1 lam2 = some m') :
    m'.treatment_net = m.treatment_net
    ∧ m'.instrumental_net = m.instrumental_net
    ∧ m'.covariate_net = m.covariate_net
    ∧ m'.add_stage1_intercept = m.add_stage1_intercept
    ∧ m'.add_stage2_intercept = m.add_stage2_intercept := by
  cases hasCov
  · obtain ⟨res, hres, hm'⟩ := fit_t_some_false m d1 d2 lam1 lam2 m' h
    subst hm'
    exact ⟨rfl, rfl, rfl, rfl, rfl⟩
  · cases hc : d2.covariate with
    | none => exact absurd (fit_t_cov_missing m d1 d2 lam1 lam2 hc ▸ h) (by simp)
    | some cov2 =>
        obtain ⟨res, hres, hm'⟩ := fit_t_some_true m d1 d2 lam1 lam2 cov2 hc m' h
        subst hm'
        exact ⟨rfl, rfl, rfl, rfl, rfl⟩

/-- Witness for C10: the concrete fit of C6's witness leaves the extractor
and flag fields untouched. -/
theorem c10_fit_frame_witness :
    ({ freshIdModel with stage1_weight := some (mat1 2),
                         stage2_weight := some (mat1 1) } : DFIVModel 1 1 1 1 1 1 1 false).treatment_net
      = freshIdModel.treatment_net := by
  have e1 : fit_linear (mat1 2) (augment_stage1_feature (mat1 1) false) 0 = some (mat1 2) := by
    rw [augment_stage1_feature_false, fit_linear_mat1 2 1 0 (by norm_num)]
    norm_num
  have e2 : fit_linear (mat1 2)
      (augment_stage2_feature (linear_reg_pred (augment_stage1_feature (mat1 1) false) (mat1 2))
        (none : Option (Matrix (Fin 1) (Fin 1) ℚ)) false) 0 = some (mat1 1) := by
    rw [augment_stage1_feature_false, linear_reg_pred_mat1, augment_stage2_feature_none_false,
      fit_linear_mat1 2 (1 * 2) 0 (by norm_num)]
    norm_num
  have hfit := fit_2sls_build (mat1 2) (mat1 1) (mat1 1)
    (none : Option (Matrix (Fin 1) (Fin 1) ℚ)) (mat1 2) 0 0 false false (mat1 2) (mat1 1) e1 e2
  have hstep : DFIVModel.fit_t freshIdModel ⟨mat1 2, mat1 1, none, mat1 2, mat1 2⟩
      ⟨mat1 2, mat1 1, none, mat1 2, mat1 2⟩ 0 0
      = some { freshIdModel with stage1_weight := some (mat1 2),
                                 stage2_weight := some (mat1 1) } := by
    unfold DFIVModel.fit_t
    dsimp only [freshIdModel, DFIVModel.init, idNet]
    rw [hfit]
  exact (c10_fit_frame freshIdModel _ ⟨mat1 2, mat1 1, none, mat1 2, mat1 2⟩
    ⟨mat1 2, mat1 1, none, mat1 2, mat1 2⟩ 0 0 hstep).1

end DFIV
